import Mathlib

/-!
Verification model of the cilium resolved-policy cache (pkg/policy cache file,
given as src/unnamed/part_000).

The Go code is embedded shallowly:

* `Identity`, `selectorPolicy`, `cachedSelectorPolicy` and the `PolicyCache`
  map are value-level structures; the Go map `policies` becomes a function
  `NumericIdentity → Option cachedSelectorPolicy`.
* The policy repository is external to the file: `repo.GetRevision()` and
  `repo.resolvePolicyLocked(identity)` enter the model as the arguments
  `repoRev` and `res` of `updateSelectorPolicy`, holding the values the
  external calls return at that call site.
* Two ghost instrumentation fields record externally observable events that
  the claims quantify over: `detachLog` appends one event per `Detach()`
  invocation (the receiver's snapshot id, or `none` when the receiver
  pointer is nil), and `resolveCount` counts `resolvePolicyLocked` calls.
  `nextSid` models Go pointer freshness: each successfully resolved
  `selectorPolicy` is a fresh heap object, so it receives a fresh id.
* Locking is dropped: every operation of the model is one atomic step of the
  serialized executions the locks produce.
-/

namespace Policy

/-- Numeric security identity (identityPkg.NumericIdentity). -/
abbrev NumericIdentity := Nat

/-- identityPkg.ReservedIdentityHost. -/
def ReservedIdentityHost : NumericIdentity := 1

/-- The part of identityPkg.Identity the cache reads: its numeric ID. -/
structure Identity where
  ID : NumericIdentity
deriving DecidableEq

/-- An authentication type (policy.AuthType). -/
abbrev AuthType := Nat

/-- policy.AuthTypes: a set of auth types (Go map-as-set). -/
abbrev AuthTypes := Finset AuthType

/-- A cached selector: the cache only calls `Selects(version, id)`; the
version argument models the versioned.VersionHandle token. -/
structure CachedSelector where
  Selects : Nat → NumericIdentity → Bool

/-- The part of L4Policy that GetAuthTypes reads: AuthMap, a Go map from
selector to required auth types, embedded as an association list whose order
stands for one Go map iteration order. -/
structure L4Policy where
  AuthMap : List (CachedSelector × AuthTypes)

/-- The resolved selectorPolicy snapshot: `Revision` is assigned by the
repository at resolution time; `sid` is the ghost snapshot identity (the Go
pointer identity of this heap object); `L4Policy` carries the auth rules. -/
structure selectorPolicy where
  Revision : Nat
  sid : Nat
  L4Policy : L4Policy

/-- cachedSelectorPolicy: per-identity entry with one snapshot slot
(`policy`, an atomic pointer in Go, hence `Option`). -/
structure cachedSelectorPolicy where
  identity : Identity
  policy : Option selectorPolicy

/-- The PolicyCache state: the identity→entry map plus the ghost
instrumentation (`nextSid`, `detachLog`, `resolveCount`) described in the
file header. -/
@[ext]
structure CacheState where
  policies : NumericIdentity → Option cachedSelectorPolicy
  nextSid : Nat
  detachLog : List (Option Nat)
  resolveCount : Nat

/-- NewPolicyCache: empty map, no events yet. -/
def initialCache : CacheState :=
  { policies := fun _ => none
    nextSid := 0
    detachLog := []
    resolveCount := 0 }

/-- newCachedSelectorPolicy: a fresh entry with an empty snapshot slot. -/
def newCachedSelectorPolicy (identity : Identity) : cachedSelectorPolicy :=
  { identity := identity, policy := none }

/-- lookupOrCreate: return the entry for `identity.ID`, inserting a fresh
empty entry first when none exists. -/
def lookupOrCreate (s : CacheState) (identity : Identity) :
    cachedSelectorPolicy × CacheState :=
  match s.policies identity.ID with
  | some cip => (cip, s)
  | none =>
      let cip := newCachedSelectorPolicy identity
      (cip,
        { s with
          policies := fun i => if i = identity.ID then some cip else s.policies i })

/-- delete (PolicyCache.delete): if an entry exists it is removed from the
map and `cip.getPolicy().Detach()` is invoked unconditionally — the logged
receiver is `cip.policy.map sid`, which is `none` exactly when the slot was
empty and the Detach receiver is the nil pointer. -/
def deleteEntry (s : CacheState) (identity : Identity) : Bool × CacheState :=
  match s.policies identity.ID with
  | some cip =>
      (true,
        { s with
          policies := fun i => if i = identity.ID then none else s.policies i
          detachLog := s.detachLog ++ [cip.policy.map selectorPolicy.sid] })
  | none => (false, s)

/-- setPolicy: swap the snapshot slot to `policy`, then Detach the old
occupant if there was one. In Go the write goes through the entry pointer;
here it is written back at the map key under which the entry was found. -/
def setPolicy (s : CacheState) (key : NumericIdentity)
    (cip : cachedSelectorPolicy) (policy : selectorPolicy) :
    cachedSelectorPolicy × CacheState :=
  let oldPolicy := cip.policy
  let cip2 : cachedSelectorPolicy := { cip with policy := some policy }
  let s2 : CacheState :=
    { s with policies := fun i => if i = key then some cip2 else s.policies i }
  match oldPolicy with
  | some oldP => (cip2, { s2 with detachLog := s2.detachLog ++ [some oldP.sid] })
  | none => (cip2, s2)

/-- The resolve-and-publish tail of updateSelectorPolicy (lines 107-115):
count the `resolvePolicyLocked` call; on error return `(nil, false, err)`
leaving the map untouched; on success build the fresh snapshot (fresh `sid`,
repository-assigned revision and rules) and publish it via `setPolicy`. -/
def resolveAndPublish (s : CacheState) (key : NumericIdentity)
    (cip : cachedSelectorPolicy) (res : Except Nat (Nat × L4Policy)) :
    (Option cachedSelectorPolicy × Bool × Option Nat) × CacheState :=
  let s1 : CacheState := { s with resolveCount := s.resolveCount + 1 }
  match res with
  | .error e => ((none, false, some e), s1)
  | .ok (rev, l4) =>
      let selPolicy : selectorPolicy :=
        { Revision := rev, sid := s1.nextSid, L4Policy := l4 }
      let s2 : CacheState := { s1 with nextSid := s1.nextSid + 1 }
      ((some (setPolicy s2 key cip selPolicy).1, true, none),
        (setPolicy s2 key cip selPolicy).2)

/-- updateSelectorPolicy: get-or-create the entry, then, unless the cached
snapshot already has `Revision ≥ repoRev` (the repository's current revision
at this call), resolve and publish. `res` is what
`repo.resolvePolicyLocked(identity)` returns at this call. -/
def updateSelectorPolicy (s : CacheState) (identity : Identity) (repoRev : Nat)
    (res : Except Nat (Nat × L4Policy)) :
    (Option cachedSelectorPolicy × Bool × Option Nat) × CacheState :=
  let cip := (lookupOrCreate s identity).1
  let s1 := (lookupOrCreate s identity).2
  match cip.policy with
  | some policy =>
      if policy.Revision ≥ repoRev then ((some cip, false, none), s1)
      else resolveAndPublish s1 identity.ID cip res
  | none => resolveAndPublish s1 identity.ID cip res

/-- UpdatePolicy: thin wrapper over updateSelectorPolicy dropping the
`changed` flag. -/
def UpdatePolicy (s : CacheState) (identity : Identity) (repoRev : Nat)
    (res : Except Nat (Nat × L4Policy)) :
    (Option cachedSelectorPolicy × Option Nat) × CacheState :=
  let r := updateSelectorPolicy s identity repoRev res
  ((r.1.1, r.1.2.2), r.2)

/-- The scan loop of GetAuthTypes (lines 153-171): for each pair, test the
selector only when some auth type of the pair is still missing from the
accumulated result, and union the pair's types in when it selects the
remote identity at the `latest` version token. -/
def getAuthTypesScan (latest : Nat) (remoteID : NumericIdentity) :
    List (CachedSelector × AuthTypes) → AuthTypes → AuthTypes
  | [], resTypes => resTypes
  | (cs, authTypes) :: rest, resTypes =>
      if (¬ authTypes ⊆ resTypes) ∧ cs.Selects latest remoteID = true then
        getAuthTypesScan latest remoteID rest (resTypes ∪ authTypes)
      else
        getAuthTypesScan latest remoteID rest resTypes

/-- The same scan without the cheap missing-auth-type test: the selector is
consulted for every pair. -/
def getAuthTypesScanNoSkip (latest : Nat) (remoteID : NumericIdentity) :
    List (CachedSelector × AuthTypes) → AuthTypes → AuthTypes
  | [], resTypes => resTypes
  | (cs, authTypes) :: rest, resTypes =>
      if cs.Selects latest remoteID = true then
        getAuthTypesScanNoSkip latest remoteID rest (resTypes ∪ authTypes)
      else
        getAuthTypesScanNoSkip latest remoteID rest resTypes

/-- The union of the auth-type sets of the pairs whose selector selects
`remoteID` at version `latest`: the declarative value GetAuthTypes is
claimed to compute. -/
def matchedUnion (latest : Nat) (remoteID : NumericIdentity)
    (authMap : List (CachedSelector × AuthTypes)) : AuthTypes :=
  authMap.foldr
    (fun p acc => if p.1.Selects latest remoteID = true then p.2 ∪ acc else acc) ∅

/-- GetAuthTypes: absent entry returns the Go nil map (`some ∅`, a defined
empty result). When the entry exists, the code reads
`selPolicy.L4Policy.AuthMap` with no nil guard; an empty slot therefore
dereferences a nil pointer, modelled as `none` (undefined result). -/
def GetAuthTypes (s : CacheState) (localID remoteID : NumericIdentity)
    (latest : Nat) : Option AuthTypes :=
  match s.policies localID with
  | none => some ∅
  | some cip =>
      match cip.policy with
      | none => none
      | some selPolicy =>
          some (getAuthTypesScan latest remoteID selPolicy.L4Policy.AuthMap ∅)

/-- The delegated call Consume hands to the external
`selectorPolicy.DistillPolicy`: the receiver snapshot and the arguments. -/
structure DistillRequest where
  snapshot : selectorPolicy
  owner : Nat
  redirects : List (Nat × Nat)
  isHost : Bool

/-- Consume: computes `isHost` and delegates to
`cip.getPolicy().DistillPolicy(owner, redirects, isHost)`. The Go signature
has no error channel; when the slot is empty the delegated call's receiver
is the nil pointer, which is outside the Snapshot contract — modelled as
`none` (no DistillRequest is formed, and no error value is produced). -/
def Consume (cip : cachedSelectorPolicy) (owner : Nat)
    (redirects : List (Nat × Nat)) : Option DistillRequest :=
  let isHost := cip.identity.ID == ReservedIdentityHost
  cip.policy.map fun sp =>
    { snapshot := sp, owner := owner, redirects := redirects, isHost := isHost }

/-- RedirectFilters: delegates to `cip.getPolicy().RedirectFilters()`; the
result stands for the sequence derived from the returned snapshot, `none`
when the receiver is the nil pointer (empty slot). -/
def RedirectFilters (cip : cachedSelectorPolicy) : Option selectorPolicy :=
  cip.policy

/-- One externally triggered cache operation, with the values the external
collaborators supply at that call. -/
inductive CacheOp where
  | update (identity : Identity) (repoRev : Nat) (res : Except Nat (Nat × L4Policy))
  | del (identity : Identity)

/-- Apply one operation to the cache state. -/
def step (s : CacheState) : CacheOp → CacheState
  | .update identity repoRev res => (updateSelectorPolicy s identity repoRev res).2
  | .del identity => (deleteEntry s identity).2

/-- Run a whole operation trace from the freshly constructed cache. -/
def run (ops : List CacheOp) : CacheState :=
  ops.foldl step initialCache

/-- The snapshot currently held by the entry at key `k`, if any. -/
def snapshotOf (s : CacheState) (k : NumericIdentity) : Option selectorPolicy :=
  (s.policies k).bind fun c => c.policy

/-- Snapshot id `n` is live: some entry's slot currently holds it. -/
def liveSid (s : CacheState) (n : Nat) : Prop :=
  ∃ i p, snapshotOf s i = some p ∧ p.sid = n

/-- How many times Detach has been invoked on the snapshot with id `n`. -/
def detachCount (s : CacheState) (n : Nat) : Nat :=
  s.detachLog.count (some n)

/-- The resource-discipline invariant: every allocated snapshot id is below
`nextSid`, no two entries hold the same snapshot, a live snapshot is never
detached, a dead allocated snapshot is detached exactly once, and an
unallocated id is never detached. -/
structure SidInv (s : CacheState) : Prop where
  sidLt : ∀ i p, snapshotOf s i = some p → p.sid < s.nextSid
  sidUnique : ∀ i j pi pj, snapshotOf s i = some pi → snapshotOf s j = some pj →
      pi.sid = pj.sid → i = j
  liveCount : ∀ n, liveSid s n → detachCount s n = 0
  deadCount : ∀ n, n < s.nextSid → ¬ liveSid s n → detachCount s n = 1
  freshCount : ∀ n, s.nextSid ≤ n → detachCount s n = 0

/-- A selector that selects everyone. -/
def selTrue : CachedSelector := { Selects := fun _ _ => true }

/-- A selector that selects no one. -/
def selFalse : CachedSelector := { Selects := fun _ _ => false }

/-- Example auth rules: a matching selector requiring auth type 0 and a
non-matching selector requiring auth types 1 and 2. -/
def exAuthMap : List (CachedSelector × AuthTypes) :=
  [(selTrue, {0}), (selFalse, {1, 2})]

/-- Example resolved snapshot at revision 5 with id 0. -/
def exPolicy : selectorPolicy :=
  { Revision := 5, sid := 0, L4Policy := { AuthMap := exAuthMap } }

/-- Example entry for identity 3 holding `exPolicy`. -/
def exEntry : cachedSelectorPolicy :=
  { identity := { ID := 3 }, policy := some exPolicy }

/-- Example entry for identity 7 whose slot is still empty (its first
resolution failed). -/
def exEntryEmpty : cachedSelectorPolicy :=
  { identity := { ID := 7 }, policy := none }

/-- Example cache state: identity 3 resolved, identity 7 never resolved. -/
def exState : CacheState :=
  { policies := fun i =>
      if i = 3 then some exEntry else if i = 7 then some exEntryEmpty else none
    nextSid := 1
    detachLog := []
    resolveCount := 1 }

/-- Example cache state in which every entry has a resolved snapshot. -/
def exStateFull : CacheState :=
  { policies := fun i => if i = 3 then some exEntry else none
    nextSid := 1
    detachLog := []
    resolveCount := 1 }

/-- Example operation trace: identity 3 is resolved at revision 1, re-resolved
after the repository advances to revision 2 (superseding snapshot 0), then
deleted (detaching snapshot 1). -/
def opsW : List CacheOp :=
  [CacheOp.update ⟨3⟩ 1 (.ok (1, ⟨[]⟩)),
    CacheOp.update ⟨3⟩ 2 (.ok (2, ⟨[]⟩)),
    CacheOp.del ⟨3⟩]

theorem lookupOrCreate_found (s : CacheState) (identity : Identity)
    (cip : cachedSelectorPolicy) (h : s.policies identity.ID = some cip) :
    lookupOrCreate s identity = (cip, s) := by
  simp [lookupOrCreate, h]

theorem lookupOrCreate_missing (s : CacheState) (identity : Identity)
    (h : s.policies identity.ID = none) :
    lookupOrCreate s identity =
      (newCachedSelectorPolicy identity,
        { s with
          policies := fun i =>
            if i = identity.ID then some (newCachedSelectorPolicy identity)
            else s.policies i }) := by
  simp [lookupOrCreate, h]

/-- C8: for a local identity with no cache entry, GetAuthTypes returns the
defined empty result (Go returns a nil AuthTypes map) and never an error:
the lookup-miss branch returns before any snapshot is dereferenced. -/
theorem GetAuthTypes_unknown_local (s : CacheState)
    (localID remoteID latest : Nat) (h : s.policies localID = none) :
    GetAuthTypes s localID remoteID latest = some ∅ := by
  simp [GetAuthTypes, h]

/-- Witness for GetAuthTypes_unknown_local: identity 9 has no entry in
`exState`, and the query returns the empty set. -/
theorem GetAuthTypes_unknown_local_witness :
    exState.policies 9 = none ∧ GetAuthTypes exState 9 4 0 = some ∅ :=
  ⟨rfl, GetAuthTypes_unknown_local exState 9 4 0 rfl⟩

/-- C5 counterexample: in `exState` identity 7 has an entry whose snapshot
slot is empty, yet `deleteEntry` (PolicyCache.delete) executes
`cip.getPolicy().Detach()` unconditionally: a Detach invocation with the nil
pointer as receiver is performed (the appended `none` event), so the claim
that no Detach call is performed is false. No snapshot is detached. -/
theorem deleteEntry_empty_slot_detach_call_counterexample :
    exState.policies 7 = some exEntryEmpty ∧
    exEntryEmpty.policy = none ∧
    (deleteEntry exState ⟨7⟩).1 = true ∧
    (deleteEntry exState ⟨7⟩).2.policies 7 = none ∧
    exState.detachLog = [] ∧
    (deleteEntry exState ⟨7⟩).2.detachLog = [Option.none] :=
  ⟨rfl, rfl, rfl, rfl, rfl, rfl⟩

/-- C5 amended: deleting an entry whose snapshot slot is empty removes the
entry, returns true, and invokes Detach exactly once on the nil snapshot
reference (one `none` event); no snapshot id is ever logged, i.e. no actual
snapshot is detached. -/
theorem deleteEntry_empty_slot (s : CacheState) (identity : Identity)
    (cip : cachedSelectorPolicy) (h : s.policies identity.ID = some cip)
    (hp : cip.policy = none) :
    deleteEntry s identity =
      (true,
        { s with
          policies := fun i => if i = identity.ID then none else s.policies i
          detachLog := s.detachLog ++ [Option.none] }) := by
  simp [deleteEntry, h, hp]

/-- Witness for deleteEntry_empty_slot at `exState` and identity 7. -/
theorem deleteEntry_empty_slot_witness :
    exState.policies (Identity.mk 7).ID = some exEntryEmpty ∧
    exEntryEmpty.policy = none ∧
    deleteEntry exState ⟨7⟩ =
      (true,
        { exState with
          policies := fun i => if i = (Identity.mk 7).ID then none else exState.policies i
          detachLog := exState.detachLog ++ [Option.none] }) :=
  ⟨rfl, rfl, deleteEntry_empty_slot exState ⟨7⟩ exEntryEmpty rfl rfl⟩

/-- C6: the first deleteEntry for an identity with an entry removes it,
appends exactly one Detach event for the slot's contents, and returns true;
an immediate second call returns false and changes nothing (in particular it
triggers no additional Detach). -/
theorem deleteEntry_idempotent (s : CacheState) (identity : Identity)
    (cip : cachedSelectorPolicy) (h : s.policies identity.ID = some cip) :
    (deleteEntry s identity).1 = true ∧
    (deleteEntry s identity).2.policies identity.ID = none ∧
    (deleteEntry s identity).2.detachLog =
      s.detachLog ++ [cip.policy.map selectorPolicy.sid] ∧
    (deleteEntry (deleteEntry s identity).2 identity).1 = false ∧
    (deleteEntry (deleteEntry s identity).2 identity).2 = (deleteEntry s identity).2 := by
  simp [deleteEntry, h]

/-- Witness for deleteEntry_idempotent at `exState` and identity 3. -/
theorem deleteEntry_idempotent_witness :
    exState.policies (Identity.mk 3).ID = some exEntry ∧
    ((deleteEntry exState ⟨3⟩).1 = true ∧
      (deleteEntry exState ⟨3⟩).2.policies (Identity.mk 3).ID = none ∧
      (deleteEntry exState ⟨3⟩).2.detachLog =
        exState.detachLog ++ [exEntry.policy.map selectorPolicy.sid] ∧
      (deleteEntry (deleteEntry exState ⟨3⟩).2 ⟨3⟩).1 = false ∧
      (deleteEntry (deleteEntry exState ⟨3⟩).2 ⟨3⟩).2 = (deleteEntry exState ⟨3⟩).2) :=
  ⟨rfl, deleteEntry_idempotent exState ⟨3⟩ exEntry rfl⟩

/-- Helper: the gated no-op branch of updateSelectorPolicy (lines 103-105):
a cached snapshot at or beyond the repository revision short-circuits the
call, whatever the resolver would have returned. -/
theorem updateSelectorPolicy_noop (s : CacheState) (identity : Identity)
    (repoRev : Nat) (res : Except Nat (Nat × L4Policy))
    (cip : cachedSelectorPolicy) (p : selectorPolicy)
    (h : s.policies identity.ID = some cip) (hp : cip.policy = some p)
    (hge : p.Revision ≥ repoRev) :
    updateSelectorPolicy s identity repoRev res = ((some cip, false, none), s) := by
  simp [updateSelectorPolicy, lookupOrCreate_found s identity cip h, hp, hge]

theorem upd_eq_missing (s : CacheState) (identity : Identity) (repoRev : Nat)
    (res : Except Nat (Nat × L4Policy)) (h : s.policies identity.ID = none) :
    updateSelectorPolicy s identity repoRev res =
      resolveAndPublish
        { s with policies := fun i =>
            if i = identity.ID then some (newCachedSelectorPolicy identity)
            else s.policies i }
        identity.ID (newCachedSelectorPolicy identity) res := by
  simp [updateSelectorPolicy, lookupOrCreate_missing s identity h, newCachedSelectorPolicy]

theorem upd_eq_found_empty (s : CacheState) (identity : Identity) (repoRev : Nat)
    (res : Except Nat (Nat × L4Policy)) (cip : cachedSelectorPolicy)
    (h : s.policies identity.ID = some cip) (hp : cip.policy = none) :
    updateSelectorPolicy s identity repoRev res =
      resolveAndPublish s identity.ID cip res := by
  simp [updateSelectorPolicy, lookupOrCreate_found s identity cip h, hp]

theorem upd_eq_found_stale (s : CacheState) (identity : Identity) (repoRev : Nat)
    (res : Except Nat (Nat × L4Policy)) (cip : cachedSelectorPolicy)
    (p : selectorPolicy) (h : s.policies identity.ID = some cip)
    (hp : cip.policy = some p) (hlt : p.Revision < repoRev) :
    updateSelectorPolicy s identity repoRev res =
      resolveAndPublish s identity.ID cip res := by
  simp [updateSelectorPolicy, lookupOrCreate_found s identity cip h, hp, Nat.not_le.mpr hlt]

theorem resolveAndPublish_error_state (s : CacheState) (k : NumericIdentity)
    (cip : cachedSelectorPolicy) (e : Nat) :
    (resolveAndPublish s k cip (.error e)).2 = { s with resolveCount := s.resolveCount + 1 } := rfl

theorem resolveAndPublish_ok_none_state (s : CacheState) (k : NumericIdentity)
    (cip : cachedSelectorPolicy) (rev : Nat) (l4 : L4Policy) (hp : cip.policy = none) :
    (resolveAndPublish s k cip (.ok (rev, l4))).2 =
      { policies := fun i =>
          if i = k then
            some { identity := cip.identity
                   policy := some { Revision := rev, sid := s.nextSid, L4Policy := l4 } }
          else s.policies i
        nextSid := s.nextSid + 1
        detachLog := s.detachLog
        resolveCount := s.resolveCount + 1 } := by
  simp [resolveAndPublish, setPolicy, hp]

theorem resolveAndPublish_ok_some_state (s : CacheState) (k : NumericIdentity)
    (cip : cachedSelectorPolicy) (rev : Nat) (l4 : L4Policy) (pold : selectorPolicy)
    (hp : cip.policy = some pold) :
    (resolveAndPublish s k cip (.ok (rev, l4))).2 =
      { policies := fun i =>
          if i = k then
            some { identity := cip.identity
                   policy := some { Revision := rev, sid := s.nextSid, L4Policy := l4 } }
          else s.policies i
        nextSid := s.nextSid + 1
        detachLog := s.detachLog ++ [some pold.sid]
        resolveCount := s.resolveCount + 1 } := by
  simp [resolveAndPublish, setPolicy, hp]

theorem deleteEntry_found_state (s : CacheState) (identity : Identity)
    (cip : cachedSelectorPolicy) (h : s.policies identity.ID = some cip) :
    (deleteEntry s identity).2 =
      { s with
        policies := fun i => if i = identity.ID then none else s.policies i
        detachLog := s.detachLog ++ [cip.policy.map selectorPolicy.sid] } := by
  simp [deleteEntry, h]

theorem deleteEntry_missing_state (s : CacheState) (identity : Identity)
    (h : s.policies identity.ID = none) :
    (deleteEntry s identity).2 = s := by
  simp [deleteEntry, h]

theorem resolveAndPublish_ok_none_fst (s : CacheState) (k : NumericIdentity)
    (cip : cachedSelectorPolicy) (rev : Nat) (l4 : L4Policy) (hp : cip.policy = none) :
    (resolveAndPublish s k cip (.ok (rev, l4))).1 =
      (some { identity := cip.identity
              policy := some { Revision := rev, sid := s.nextSid, L4Policy := l4 } },
        true, none) := by
  simp [resolveAndPublish, setPolicy, hp]

theorem resolveAndPublish_ok_some_fst (s : CacheState) (k : NumericIdentity)
    (cip : cachedSelectorPolicy) (rev : Nat) (l4 : L4Policy) (pold : selectorPolicy)
    (hp : cip.policy = some pold) :
    (resolveAndPublish s k cip (.ok (rev, l4))).1 =
      (some { identity := cip.identity
              policy := some { Revision := rev, sid := s.nextSid, L4Policy := l4 } },
        true, none) := by
  simp [resolveAndPublish, setPolicy, hp]

/-- C1: (a) when the cached snapshot's revision is at least the
repository's current revision, updateSelectorPolicy is a pure no-op:
it returns the entry, changed=false, no error, and the state — including
the resolution counter and the detach log — is exactly unchanged;
(b) at a stable repository revision, starting from any state in which the
revision gate does not hold (no entry, empty slot, or stale snapshot),
calling twice resolves exactly once: the first call performs the single
resolution, and the second call returns the same entry reference,
changed=false, no error, and leaves the state of the first call intact. -/
theorem updateSelectorPolicy_revision_gate :
    (∀ (s : CacheState) (identity : Identity) (repoRev : Nat)
        (res : Except Nat (Nat × L4Policy)) (cip : cachedSelectorPolicy)
        (p : selectorPolicy),
        s.policies identity.ID = some cip → cip.policy = some p →
        p.Revision ≥ repoRev →
        updateSelectorPolicy s identity repoRev res = ((some cip, false, none), s)) ∧
    (∀ (s : CacheState) (identity : Identity) (repoRev rev : Nat) (l4 : L4Policy)
        (res2 : Except Nat (Nat × L4Policy)),
        (∀ p, snapshotOf s identity.ID = some p → p.Revision < repoRev) →
        rev ≥ repoRev →
        (updateSelectorPolicy s identity repoRev (.ok (rev, l4))).2.resolveCount
            = s.resolveCount + 1 ∧
        updateSelectorPolicy
            (updateSelectorPolicy s identity repoRev (.ok (rev, l4))).2 identity repoRev res2
          = (((updateSelectorPolicy s identity repoRev (.ok (rev, l4))).1.1, false, none),
              (updateSelectorPolicy s identity repoRev (.ok (rev, l4))).2)) := by
  constructor
  · intro s identity repoRev res cip p h hp hge
    exact updateSelectorPolicy_noop s identity repoRev res cip p h hp hge
  · intro s identity repoRev rev l4 res2 hstale hge
    rcases h : s.policies identity.ID with _ | cip
    · rw [upd_eq_missing s identity repoRev (Except.ok (rev, l4)) h,
        resolveAndPublish_ok_none_state
          { s with policies := fun i =>
              if i = identity.ID then some (newCachedSelectorPolicy identity)
              else s.policies i }
          identity.ID (newCachedSelectorPolicy identity) rev l4 rfl,
        resolveAndPublish_ok_none_fst
          { s with policies := fun i =>
              if i = identity.ID then some (newCachedSelectorPolicy identity)
              else s.policies i }
          identity.ID (newCachedSelectorPolicy identity) rev l4 rfl]
      exact ⟨rfl, updateSelectorPolicy_noop _ identity repoRev res2 _ _ (by simp) rfl hge⟩
    · rcases hp : cip.policy with _ | p
      · rw [upd_eq_found_empty s identity repoRev (Except.ok (rev, l4)) cip h hp,
          resolveAndPublish_ok_none_state s identity.ID cip rev l4 hp,
          resolveAndPublish_ok_none_fst s identity.ID cip rev l4 hp]
        exact ⟨rfl, updateSelectorPolicy_noop _ identity repoRev res2 _ _ (by simp) rfl hge⟩
      · have hlt : p.Revision < repoRev := hstale p (by simp [snapshotOf, h, hp])
        rw [upd_eq_found_stale s identity repoRev (Except.ok (rev, l4)) cip p h hp hlt,
          resolveAndPublish_ok_some_state s identity.ID cip rev l4 p hp,
          resolveAndPublish_ok_some_fst s identity.ID cip rev l4 p hp]
        exact ⟨rfl, updateSelectorPolicy_noop _ identity repoRev res2 _ _ (by simp) rfl hge⟩

/-- Witness for updateSelectorPolicy_revision_gate: part (a) at `exState`
(revision 5 snapshot, repository revision 5) and part (b) from the empty
cache at repository revision 2. -/
theorem updateSelectorPolicy_revision_gate_witness :
    (exState.policies (Identity.mk 3).ID = some exEntry ∧
      exEntry.policy = some exPolicy ∧ exPolicy.Revision ≥ 5 ∧
      updateSelectorPolicy exState ⟨3⟩ 5 (.error 0) = ((some exEntry, false, none), exState)) ∧
    ((∀ p, snapshotOf initialCache (Identity.mk 3).ID = some p → p.Revision < 2) ∧
      (2 : Nat) ≥ 2 ∧
      (updateSelectorPolicy initialCache ⟨3⟩ 2 (.ok (2, ⟨[]⟩))).2.resolveCount
          = initialCache.resolveCount + 1 ∧
      updateSelectorPolicy
          (updateSelectorPolicy initialCache ⟨3⟩ 2 (.ok (2, ⟨[]⟩))).2 ⟨3⟩ 2 (.error 9)
        = (((updateSelectorPolicy initialCache ⟨3⟩ 2 (.ok (2, ⟨[]⟩))).1.1, false, none),
            (updateSelectorPolicy initialCache ⟨3⟩ 2 (.ok (2, ⟨[]⟩))).2)) :=
  ⟨⟨rfl, rfl, by decide,
      updateSelectorPolicy_revision_gate.1 exState ⟨3⟩ 5 (.error 0) exEntry exPolicy rfl rfl
        (by decide)⟩,
    ⟨fun p hp => by simp [snapshotOf, initialCache] at hp, by decide,
      (updateSelectorPolicy_revision_gate.2 initialCache ⟨3⟩ 2 2 ⟨[]⟩ (.error 9)
        (fun p hp => by simp [snapshotOf, initialCache] at hp) (by decide)).1,
      (updateSelectorPolicy_revision_gate.2 initialCache ⟨3⟩ 2 2 ⟨[]⟩ (.error 9)
        (fun p hp => by simp [snapshotOf, initialCache] at hp) (by decide)).2⟩⟩

/-- C2: whenever resolution actually runs (no cached snapshot at the
current revision) and succeeds, updateSelectorPolicy returns changed=true
and no error, the entry's slot — both in the returned entry and in the
map — holds exactly the newly resolved snapshot, and the detach log grows
by exactly one event: the superseded snapshot's id if the slot was
occupied, nothing otherwise. -/
theorem updateSelectorPolicy_publish_swap_detach (s : CacheState)
    (identity : Identity) (repoRev rev : Nat) (l4 : L4Policy)
    (hstale : ∀ p, snapshotOf s identity.ID = some p → p.Revision < repoRev) :
    (updateSelectorPolicy s identity repoRev (.ok (rev, l4))).1.2.1 = true ∧
    (updateSelectorPolicy s identity repoRev (.ok (rev, l4))).1.2.2 = none ∧
    (∃ cip2,
      (updateSelectorPolicy s identity repoRev (.ok (rev, l4))).1.1 = some cip2 ∧
      cip2.policy = some { Revision := rev, sid := s.nextSid, L4Policy := l4 } ∧
      (updateSelectorPolicy s identity repoRev (.ok (rev, l4))).2.policies identity.ID
          = some cip2) ∧
    (updateSelectorPolicy s identity repoRev (.ok (rev, l4))).2.detachLog =
      s.detachLog ++ ((snapshotOf s identity.ID).map fun p => some p.sid).toList := by
  rcases h : s.policies identity.ID with _ | cip
  · have hl := lookupOrCreate_missing s identity h
    refine ⟨?_, ?_,
        ⟨{ identity := identity
           policy := some { Revision := rev, sid := s.nextSid, L4Policy := l4 } },
          ?_, rfl, ?_⟩, ?_⟩ <;>
      simp [updateSelectorPolicy, hl, resolveAndPublish, setPolicy,
        newCachedSelectorPolicy, snapshotOf, h]
  · have hl := lookupOrCreate_found s identity cip h
    rcases hp : cip.policy with _ | p
    · refine ⟨?_, ?_,
          ⟨{ identity := cip.identity
             policy := some { Revision := rev, sid := s.nextSid, L4Policy := l4 } },
            ?_, rfl, ?_⟩, ?_⟩ <;>
        simp [updateSelectorPolicy, hl, hp, resolveAndPublish, setPolicy,
          snapshotOf, h]
    · have hlt : p.Revision < repoRev := hstale p (by simp [snapshotOf, h, hp])
      have hnot : ¬ p.Revision ≥ repoRev := Nat.not_le.mpr hlt
      refine ⟨?_, ?_,
          ⟨{ identity := cip.identity
             policy := some { Revision := rev, sid := s.nextSid, L4Policy := l4 } },
            ?_, rfl, ?_⟩, ?_⟩ <;>
        simp [updateSelectorPolicy, hl, hp, hnot, resolveAndPublish, setPolicy,
          snapshotOf, h]

/-- Witness for updateSelectorPolicy_publish_swap_detach: `exState` holds a
revision-5 snapshot for identity 3; the repository is at revision 6. -/
theorem updateSelectorPolicy_publish_swap_detach_witness :
    (∀ p, snapshotOf exState (Identity.mk 3).ID = some p → p.Revision < 6) ∧
    ((updateSelectorPolicy exState ⟨3⟩ 6 (.ok (6, ⟨[]⟩))).1.2.1 = true ∧
      (updateSelectorPolicy exState ⟨3⟩ 6 (.ok (6, ⟨[]⟩))).1.2.2 = none ∧
      (∃ cip2,
        (updateSelectorPolicy exState ⟨3⟩ 6 (.ok (6, ⟨[]⟩))).1.1 = some cip2 ∧
        cip2.policy = some { Revision := 6, sid := exState.nextSid, L4Policy := ⟨[]⟩ } ∧
        (updateSelectorPolicy exState ⟨3⟩ 6 (.ok (6, ⟨[]⟩))).2.policies (Identity.mk 3).ID
            = some cip2) ∧
      (updateSelectorPolicy exState ⟨3⟩ 6 (.ok (6, ⟨[]⟩))).2.detachLog =
        exState.detachLog ++
          ((snapshotOf exState (Identity.mk 3).ID).map fun p => some p.sid).toList) :=
  ⟨fun p hp => by
      rw [show snapshotOf exState (Identity.mk 3).ID = some exPolicy from rfl] at hp
      cases hp
      decide,
    updateSelectorPolicy_publish_swap_detach exState ⟨3⟩ 6 6 ⟨[]⟩
      (fun p hp => by
        rw [show snapshotOf exState (Identity.mk 3).ID = some exPolicy from rfl] at hp
        cases hp
        decide)⟩

/-- C3: when resolution actually runs and the resolver fails,
updateSelectorPolicy returns (nil, changed=false, the error); the entry's
snapshot slot is untouched (the failed call replaces nothing), no Detach is
performed, every other identity's entry is untouched, and exactly one
resolution was attempted. -/
theorem updateSelectorPolicy_resolver_failure (s : CacheState)
    (identity : Identity) (repoRev e : Nat)
    (hstale : ∀ p, snapshotOf s identity.ID = some p → p.Revision < repoRev) :
    (updateSelectorPolicy s identity repoRev (.error e)).1 = (none, false, some e) ∧
    snapshotOf (updateSelectorPolicy s identity repoRev (.error e)).2 identity.ID
        = snapshotOf s identity.ID ∧
    (∀ j, j ≠ identity.ID →
      (updateSelectorPolicy s identity repoRev (.error e)).2.policies j = s.policies j) ∧
    (updateSelectorPolicy s identity repoRev (.error e)).2.detachLog = s.detachLog ∧
    (updateSelectorPolicy s identity repoRev (.error e)).2.resolveCount
        = s.resolveCount + 1 := by
  rcases h : s.policies identity.ID with _ | cip
  · have hl := lookupOrCreate_missing s identity h
    refine ⟨?_, ?_, ?_, ?_, ?_⟩ <;>
      simp [updateSelectorPolicy, hl, resolveAndPublish, newCachedSelectorPolicy,
        snapshotOf, h]
    intro j hj
    simp [hj]
  · have hl := lookupOrCreate_found s identity cip h
    rcases hp : cip.policy with _ | p
    · refine ⟨?_, ?_, ?_, ?_, ?_⟩ <;>
        simp [updateSelectorPolicy, hl, hp, resolveAndPublish, snapshotOf, h]
    · have hlt : p.Revision < repoRev := hstale p (by simp [snapshotOf, h, hp])
      have hnot : ¬ p.Revision ≥ repoRev := Nat.not_le.mpr hlt
      refine ⟨?_, ?_, ?_, ?_, ?_⟩ <;>
        simp [updateSelectorPolicy, hl, hp, hnot, resolveAndPublish, snapshotOf, h]

/-- Witness for updateSelectorPolicy_resolver_failure: resolving identity 3
in `exState` at repository revision 6 fails with error 42. -/
theorem updateSelectorPolicy_resolver_failure_witness :
    (∀ p, snapshotOf exState (Identity.mk 3).ID = some p → p.Revision < 6) ∧
    ((updateSelectorPolicy exState ⟨3⟩ 6 (.error 42)).1 = (none, false, some 42) ∧
      snapshotOf (updateSelectorPolicy exState ⟨3⟩ 6 (.error 42)).2 (Identity.mk 3).ID
          = snapshotOf exState (Identity.mk 3).ID ∧
      (∀ j, j ≠ (Identity.mk 3).ID →
        (updateSelectorPolicy exState ⟨3⟩ 6 (.error 42)).2.policies j = exState.policies j) ∧
      (updateSelectorPolicy exState ⟨3⟩ 6 (.error 42)).2.detachLog = exState.detachLog ∧
      (updateSelectorPolicy exState ⟨3⟩ 6 (.error 42)).2.resolveCount
          = exState.resolveCount + 1) :=
  ⟨fun p hp => by
      rw [show snapshotOf exState (Identity.mk 3).ID = some exPolicy from rfl] at hp
      cases hp
      decide,
    updateSelectorPolicy_resolver_failure exState ⟨3⟩ 6 42
      (fun p hp => by
        rw [show snapshotOf exState (Identity.mk 3).ID = some exPolicy from rfl] at hp
        cases hp
        decide)⟩

/-- C9 counterexample: for an entry that never completed a successful
update (empty slot), Consume and RedirectFilters do not return any defined
"no policy" error — their Go signatures have no error channel at all; they
invoke DistillPolicy and RedirectFilters on the nil snapshot pointer,
modelled as the undefined delegation `none`. -/
theorem consume_before_resolve_counterexample :
    exEntryEmpty.policy = none ∧
    Consume exEntryEmpty 0 [] = none ∧
    RedirectFilters exEntryEmpty = none :=
  ⟨rfl, rfl, rfl⟩

/-- C9 amended: calling Consume or RedirectFilters on a never-resolved
entry does not silently distill an empty policy — no DistillRequest is
formed — but neither does it return a defined error: the snapshot operation
is invoked on the nil snapshot reference (result `none`). -/
theorem consume_before_resolve_nil_delegation (cip : cachedSelectorPolicy)
    (owner : Nat) (redirects : List (Nat × Nat)) (h : cip.policy = none) :
    Consume cip owner redirects = none ∧ RedirectFilters cip = none := by
  simp [Consume, RedirectFilters, h]

/-- Witness for consume_before_resolve_nil_delegation at `exEntryEmpty`. -/
theorem consume_before_resolve_nil_delegation_witness :
    exEntryEmpty.policy = none ∧
    (Consume exEntryEmpty 5 [(1, 2)] = none ∧ RedirectFilters exEntryEmpty = none) :=
  ⟨rfl, consume_before_resolve_nil_delegation exEntryEmpty 5 [(1, 2)] rfl⟩

theorem getAuthTypesScan_cons (latest : Nat) (remoteID : NumericIdentity)
    (cs : CachedSelector) (ats : AuthTypes)
    (tl : List (CachedSelector × AuthTypes)) (acc : AuthTypes) :
    getAuthTypesScan latest remoteID ((cs, ats) :: tl) acc =
      if (¬ ats ⊆ acc) ∧ cs.Selects latest remoteID = true then
        getAuthTypesScan latest remoteID tl (acc ∪ ats)
      else getAuthTypesScan latest remoteID tl acc := rfl

theorem getAuthTypesScanNoSkip_cons (latest : Nat) (remoteID : NumericIdentity)
    (cs : CachedSelector) (ats : AuthTypes)
    (tl : List (CachedSelector × AuthTypes)) (acc : AuthTypes) :
    getAuthTypesScanNoSkip latest remoteID ((cs, ats) :: tl) acc =
      if cs.Selects latest remoteID = true then
        getAuthTypesScanNoSkip latest remoteID tl (acc ∪ ats)
      else getAuthTypesScanNoSkip latest remoteID tl acc := rfl

theorem matchedUnion_cons (latest : Nat) (remoteID : NumericIdentity)
    (cs : CachedSelector) (ats : AuthTypes)
    (tl : List (CachedSelector × AuthTypes)) :
    matchedUnion latest remoteID ((cs, ats) :: tl) =
      if cs.Selects latest remoteID = true then
        ats ∪ matchedUnion latest remoteID tl
      else matchedUnion latest remoteID tl := rfl

/-- Helper: the scan loop computes the accumulated set unioned with the
union over all selecting pairs; the skip test never loses auth types. -/
theorem getAuthTypesScan_eq_union (latest : Nat) (remoteID : NumericIdentity)
    (l : List (CachedSelector × AuthTypes)) :
    ∀ acc : AuthTypes,
      getAuthTypesScan latest remoteID l acc = acc ∪ matchedUnion latest remoteID l := by
  induction l with
  | nil => intro acc; simp [getAuthTypesScan, matchedUnion]
  | cons hd tl ih =>
      intro acc
      obtain ⟨cs, ats⟩ := hd
      rw [getAuthTypesScan_cons, matchedUnion_cons]
      by_cases hsel : cs.Selects latest remoteID = true
      · by_cases hsub : ats ⊆ acc
        · rw [if_neg (by tauto), if_pos hsel, ih]
          ext a
          have hmem := @hsub a
          simp only [Finset.mem_union]
          tauto
        · rw [if_pos ⟨hsub, hsel⟩, if_pos hsel, ih, Finset.union_assoc]
      · rw [if_neg (by tauto), if_neg hsel, ih]

/-- Helper: matchedUnion is invariant under permutation of the auth-rule
table (Go map iteration order). -/
theorem matchedUnion_perm (latest : Nat) (remoteID : NumericIdentity)
    {l l2 : List (CachedSelector × AuthTypes)} (hp : l.Perm l2) :
    matchedUnion latest remoteID l = matchedUnion latest remoteID l2 := by
  induction hp with
  | nil => rfl
  | cons x _ ih =>
      obtain ⟨cs, ats⟩ := x
      rw [matchedUnion_cons, matchedUnion_cons, ih]
  | swap x y l =>
      obtain ⟨cs1, a1⟩ := x
      obtain ⟨cs2, a2⟩ := y
      simp only [matchedUnion_cons]
      by_cases h1 : cs1.Selects latest remoteID = true
      · by_cases h2 : cs2.Selects latest remoteID = true
        · simp only [h1, h2, if_true]
          ext a
          simp only [Finset.mem_union]
          tauto
        · simp [h1, h2]
      · by_cases h2 : cs2.Selects latest remoteID = true
        · simp [h1, h2]
        · simp [h1, h2]
  | trans _ _ ih1 ih2 => rw [ih1, ih2]

/-- Helper: dropping the cheap membership test never changes the scan's
result. -/
theorem getAuthTypesScan_noSkip (latest : Nat) (remoteID : NumericIdentity)
    (l : List (CachedSelector × AuthTypes)) :
    ∀ acc : AuthTypes,
      getAuthTypesScan latest remoteID l acc
        = getAuthTypesScanNoSkip latest remoteID l acc := by
  induction l with
  | nil => intro acc; rfl
  | cons hd tl ih =>
      intro acc
      obtain ⟨cs, ats⟩ := hd
      rw [getAuthTypesScan_cons, getAuthTypesScanNoSkip_cons]
      by_cases hsel : cs.Selects latest remoteID = true
      · by_cases hsub : ats ⊆ acc
        · rw [if_neg (by tauto), if_pos hsel, ih, Finset.union_eq_left.mpr hsub]
        · rw [if_pos ⟨hsub, hsel⟩, if_pos hsel, ih]
      · rw [if_neg (by tauto), if_neg hsel, ih]

/-- C7: for a resolved local identity, GetAuthTypes returns exactly the
union of the auth-type sets of the pairs whose selector selects the remote
identity at the latest version; the result is invariant under the table's
iteration order, and the cheap membership check (skipping the selector test
when nothing is missing) never changes the scan's result. -/
theorem GetAuthTypes_auth_union (s : CacheState)
    (localID remoteID latest : Nat) (cip : cachedSelectorPolicy)
    (sp : selectorPolicy) (h1 : s.policies localID = some cip)
    (h2 : cip.policy = some sp) :
    GetAuthTypes s localID remoteID latest
        = some (matchedUnion latest remoteID sp.L4Policy.AuthMap) ∧
    (∀ l l2 : List (CachedSelector × AuthTypes), l.Perm l2 →
      getAuthTypesScan latest remoteID l ∅ = getAuthTypesScan latest remoteID l2 ∅) ∧
    (∀ (l : List (CachedSelector × AuthTypes)) (acc : AuthTypes),
      getAuthTypesScan latest remoteID l acc
        = getAuthTypesScanNoSkip latest remoteID l acc) := by
  refine ⟨?_, ?_, ?_⟩
  · simp [GetAuthTypes, h1, h2, getAuthTypesScan_eq_union]
  · intro l l2 hp
    rw [getAuthTypesScan_eq_union, getAuthTypesScan_eq_union,
      matchedUnion_perm latest remoteID hp]
  · exact getAuthTypesScan_noSkip latest remoteID

/-- Witness for GetAuthTypes_auth_union: identity 3 in `exState`, whose
auth rules are the spec's test vector (a selecting pair requiring type 0,
a non-selecting pair requiring types 1 and 2). -/
theorem GetAuthTypes_auth_union_witness :
    exState.policies 3 = some exEntry ∧ exEntry.policy = some exPolicy ∧
    (GetAuthTypes exState 3 4 0 = some (matchedUnion 0 4 exPolicy.L4Policy.AuthMap) ∧
      (∀ l l2 : List (CachedSelector × AuthTypes), l.Perm l2 →
        getAuthTypesScan 0 4 l ∅ = getAuthTypesScan 0 4 l2 ∅) ∧
      (∀ (l : List (CachedSelector × AuthTypes)) (acc : AuthTypes),
        getAuthTypesScan 0 4 l acc = getAuthTypesScanNoSkip 0 4 l acc)) :=
  ⟨rfl, rfl, GetAuthTypes_auth_union exState 3 4 0 exEntry exPolicy rfl rfl⟩

/-- The spec's auth-union test vector evaluated: the selecting pair's type 0
is returned, the non-selecting pair's types 1 and 2 are not. -/
theorem exState_auth_query : GetAuthTypes exState 3 4 0 = some {0} := by decide

/-- C10: (a) if the very first update for an identity fails at resolution,
the get-or-create entry stays in the registry with an empty snapshot slot;
(b) GetAuthTypes on such an entry dereferences the nil snapshot with no
guard (undefined result `none`); (c) under the precondition that every
registered entry has a non-empty slot, GetAuthTypes is defined for all
queries. -/
theorem GetAuthTypes_empty_slot_precondition :
    (∀ (s : CacheState) (identity : Identity) (repoRev e : Nat),
      s.policies identity.ID = none →
      (updateSelectorPolicy s identity repoRev (.error e)).1 = (none, false, some e) ∧
      (updateSelectorPolicy s identity repoRev (.error e)).2.policies identity.ID
          = some (newCachedSelectorPolicy identity) ∧
      (newCachedSelectorPolicy identity).policy = none) ∧
    (∀ (s : CacheState) (localID remoteID latest : Nat) (cip : cachedSelectorPolicy),
      s.policies localID = some cip → cip.policy = none →
      GetAuthTypes s localID remoteID latest = none) ∧
    (∀ (s : CacheState) (localID remoteID latest : Nat),
      (∀ i cip, s.policies i = some cip → cip.policy.isSome = true) →
      (GetAuthTypes s localID remoteID latest).isSome = true) := by
  refine ⟨?_, ?_, ?_⟩
  · intro s identity repoRev e h0
    have hl := lookupOrCreate_missing s identity h0
    refine ⟨?_, ?_, rfl⟩ <;>
      simp [updateSelectorPolicy, hl, resolveAndPublish, newCachedSelectorPolicy]
  · intro s localID remoteID latest cip h1 h2
    simp [GetAuthTypes, h1, h2]
  · intro s localID remoteID latest hpre
    rcases h : s.policies localID with _ | cip
    · simp [GetAuthTypes, h]
    · have hfull := hpre localID cip h
      rcases hp : cip.policy with _ | sp
      · rw [hp] at hfull
        simp at hfull
      · simp [GetAuthTypes, h, hp]

/-- Witness for GetAuthTypes_empty_slot_precondition: part (a) on the empty
cache for identity 7; part (b) at `exState`, where identity 7's entry has an
empty slot; part (c) at `exStateFull`, where every entry is resolved. -/
theorem GetAuthTypes_empty_slot_precondition_witness :
    (initialCache.policies (Identity.mk 7).ID = none ∧
      ((updateSelectorPolicy initialCache ⟨7⟩ 4 (.error 3)).1 = (none, false, some 3) ∧
        (updateSelectorPolicy initialCache ⟨7⟩ 4 (.error 3)).2.policies (Identity.mk 7).ID
            = some (newCachedSelectorPolicy ⟨7⟩) ∧
        (newCachedSelectorPolicy (Identity.mk 7)).policy = none)) ∧
    (exState.policies 7 = some exEntryEmpty ∧ exEntryEmpty.policy = none ∧
      GetAuthTypes exState 7 4 0 = none) ∧
    ((∀ i cip, exStateFull.policies i = some cip → cip.policy.isSome = true) ∧
      (GetAuthTypes exStateFull 3 4 0).isSome = true) := by
  have hpre : ∀ i cip, exStateFull.policies i = some cip → cip.policy.isSome = true := by
    intro i cip h
    by_cases hi : i = 3
    · subst hi
      simp only [exStateFull, if_pos rfl] at h
      injection h with h
      subst h
      rfl
    · simp [exStateFull, hi] at h
  refine ⟨⟨rfl, GetAuthTypes_empty_slot_precondition.1 initialCache ⟨7⟩ 4 3 rfl⟩,
    ⟨rfl, rfl, GetAuthTypes_empty_slot_precondition.2.1 exState 7 4 0 exEntryEmpty rfl rfl⟩,
    ⟨hpre, GetAuthTypes_empty_slot_precondition.2.2 exStateFull 3 4 0 hpre⟩⟩

theorem count_some_singleton (m n : Nat) :
    ([some m] : List (Option Nat)).count (some n) = if m = n then 1 else 0 := by
  by_cases h : m = n
  · subst h; simp
  · simp [List.count_cons, h]

theorem count_none_singleton (n : Nat) :
    ([Option.none] : List (Option Nat)).count (some n) = 0 := by
  simp [List.count_cons]

theorem snapshotOf_write (s : CacheState) (k : NumericIdentity)
    (cip2 : cachedSelectorPolicy) (N : Nat) (L : List (Option Nat)) (rc : Nat)
    (i : NumericIdentity) :
    snapshotOf { policies := fun j => if j = k then some cip2 else s.policies j
                 nextSid := N, detachLog := L, resolveCount := rc } i
      = if i = k then cip2.policy else snapshotOf s i := by
  by_cases h : i = k <;> simp [snapshotOf, h]

theorem snapshotOf_erase (s : CacheState) (k : NumericIdentity)
    (N : Nat) (L : List (Option Nat)) (rc : Nat) (i : NumericIdentity) :
    snapshotOf { policies := fun j => if j = k then none else s.policies j
                 nextSid := N, detachLog := L, resolveCount := rc } i
      = if i = k then none else snapshotOf s i := by
  by_cases h : i = k <;> simp [snapshotOf, h]

theorem detachCount_mk (P : NumericIdentity → Option cachedSelectorPolicy)
    (N : Nat) (L : List (Option Nat)) (rc n : Nat) :
    detachCount { policies := P, nextSid := N, detachLog := L, resolveCount := rc } n
      = L.count (some n) := rfl

theorem liveSid_write_iff (s : CacheState) (k : NumericIdentity)
    (cip2 : cachedSelectorPolicy) (N : Nat) (L : List (Option Nat)) (rc n : Nat) :
    liveSid { policies := fun j => if j = k then some cip2 else s.policies j
              nextSid := N, detachLog := L, resolveCount := rc } n ↔
      ((∃ p, cip2.policy = some p ∧ p.sid = n) ∨
        (∃ i, i ≠ k ∧ ∃ p, snapshotOf s i = some p ∧ p.sid = n)) := by
  constructor
  · rintro ⟨i, p, hsp, hsid⟩
    rw [snapshotOf_write] at hsp
    by_cases hik : i = k
    · rw [if_pos hik] at hsp
      exact Or.inl ⟨p, hsp, hsid⟩
    · rw [if_neg hik] at hsp
      exact Or.inr ⟨i, hik, p, hsp, hsid⟩
  · rintro (⟨p, hp, hsid⟩ | ⟨i, hik, p, hsp, hsid⟩)
    · exact ⟨k, p, by rw [snapshotOf_write, if_pos rfl]; exact hp, hsid⟩
    · exact ⟨i, p, by rw [snapshotOf_write, if_neg hik]; exact hsp, hsid⟩

theorem liveSid_erase_iff (s : CacheState) (k : NumericIdentity)
    (N : Nat) (L : List (Option Nat)) (rc n : Nat) :
    liveSid { policies := fun j => if j = k then none else s.policies j
              nextSid := N, detachLog := L, resolveCount := rc } n ↔
      ∃ i, i ≠ k ∧ ∃ p, snapshotOf s i = some p ∧ p.sid = n := by
  constructor
  · rintro ⟨i, p, hsp, hsid⟩
    rw [snapshotOf_erase] at hsp
    by_cases hik : i = k
    · rw [if_pos hik] at hsp
      exact Option.noConfusion hsp
    · rw [if_neg hik] at hsp
      exact ⟨i, hik, p, hsp, hsid⟩
  · rintro ⟨i, hik, p, hsp, hsid⟩
    exact ⟨i, p, by rw [snapshotOf_erase, if_neg hik]; exact hsp, hsid⟩

theorem SidInv_rc (s : CacheState) (c : Nat) (inv : SidInv s) :
    SidInv { s with resolveCount := c } :=
  ⟨inv.sidLt, inv.sidUnique, inv.liveCount, inv.deadCount, inv.freshCount⟩

theorem SidInv_insert_empty (s : CacheState) (identity : Identity)
    (h : s.policies identity.ID = none) (inv : SidInv s) :
    SidInv { s with policies := fun i =>
        if i = identity.ID then some (newCachedSelectorPolicy identity)
        else s.policies i } := by
  have hsnap : snapshotOf s identity.ID = none := by simp [snapshotOf, h]
  refine ⟨?_, ?_, ?_, ?_, ?_⟩
  · intro i p hsp
    rw [snapshotOf_write] at hsp
    by_cases hik : i = identity.ID
    · rw [if_pos hik] at hsp
      exact absurd hsp (by simp [newCachedSelectorPolicy])
    · rw [if_neg hik] at hsp
      exact inv.sidLt i p hsp
  · intro i j pi pj hi hj hsid
    rw [snapshotOf_write] at hi hj
    by_cases hik : i = identity.ID
    · rw [if_pos hik] at hi
      exact absurd hi (by simp [newCachedSelectorPolicy])
    · rw [if_neg hik] at hi
      by_cases hjk : j = identity.ID
      · rw [if_pos hjk] at hj
        exact absurd hj (by simp [newCachedSelectorPolicy])
      · rw [if_neg hjk] at hj
        exact inv.sidUnique i j pi pj hi hj hsid
  · intro n hl
    rw [liveSid_write_iff] at hl
    rcases hl with ⟨p, hp, _⟩ | ⟨i, hik, p, hsp, hsid⟩
    · exact absurd hp (by simp [newCachedSelectorPolicy])
    · exact inv.liveCount n ⟨i, p, hsp, hsid⟩
  · intro n hn hnl
    refine inv.deadCount n hn ?_
    rintro ⟨i, p, hsp, hsid⟩
    by_cases hik : i = identity.ID
    · rw [hik, hsnap] at hsp
      exact Option.noConfusion hsp
    · exact hnl (by rw [liveSid_write_iff]; exact Or.inr ⟨i, hik, p, hsp, hsid⟩)
  · intro n hn
    exact inv.freshCount n hn

theorem SidInv_publish_none (s : CacheState) (k : NumericIdentity)
    (cip2 : cachedSelectorPolicy) (pnew : selectorPolicy) (rc : Nat)
    (hold : snapshotOf s k = none) (hp2 : cip2.policy = some pnew)
    (hsid : pnew.sid = s.nextSid) (inv : SidInv s) :
    SidInv { policies := fun i => if i = k then some cip2 else s.policies i
             nextSid := s.nextSid + 1
             detachLog := s.detachLog
             resolveCount := rc } := by
  refine ⟨?_, ?_, ?_, ?_, ?_⟩
  · intro i p hsp
    rw [snapshotOf_write] at hsp
    show p.sid < s.nextSid + 1
    by_cases hik : i = k
    · rw [if_pos hik, hp2] at hsp
      injection hsp with hsp
      subst hsp
      omega
    · rw [if_neg hik] at hsp
      have := inv.sidLt i p hsp
      omega
  · intro i j pi pj hi hj hsid2
    rw [snapshotOf_write] at hi hj
    by_cases hik : i = k
    · by_cases hjk : j = k
      · exact hik.trans hjk.symm
      · exfalso
        rw [if_pos hik, hp2] at hi
        injection hi with hi
        subst hi
        rw [if_neg hjk] at hj
        have := inv.sidLt j pj hj
        omega
    · by_cases hjk : j = k
      · exfalso
        rw [if_pos hjk, hp2] at hj
        injection hj with hj
        subst hj
        rw [if_neg hik] at hi
        have := inv.sidLt i pi hi
        omega
      · rw [if_neg hik] at hi
        rw [if_neg hjk] at hj
        exact inv.sidUnique i j pi pj hi hj hsid2
  · intro n hl
    rw [liveSid_write_iff] at hl
    rw [detachCount_mk]
    rcases hl with ⟨p, hp, hpsid⟩ | ⟨i, hik, p, hsp, hpsid⟩
    · rw [hp2] at hp
      injection hp with hp
      subst hp
      exact inv.freshCount n (by omega)
    · exact inv.liveCount n ⟨i, p, hsp, hpsid⟩
  · intro n hn hnl
    rw [detachCount_mk]
    by_cases hns : n = s.nextSid
    · exfalso
      exact hnl (by rw [liveSid_write_iff]; exact Or.inl ⟨pnew, hp2, by omega⟩)
    · have hn2 : n < s.nextSid := by
        have : n < s.nextSid + 1 := hn
        omega
      have hdead : ¬ liveSid s n := by
        rintro ⟨i, p, hsp, hpsid⟩
        by_cases hik : i = k
        · rw [hik, hold] at hsp
          exact Option.noConfusion hsp
        · exact hnl (by rw [liveSid_write_iff]; exact Or.inr ⟨i, hik, p, hsp, hpsid⟩)
      exact inv.deadCount n hn2 hdead
  · intro n hn
    rw [detachCount_mk]
    have : s.nextSid + 1 ≤ n := hn
    exact inv.freshCount n (by omega)

theorem SidInv_publish_some (s : CacheState) (k : NumericIdentity)
    (cip2 : cachedSelectorPolicy) (pnew pold : selectorPolicy) (rc : Nat)
    (hold : snapshotOf s k = some pold) (hp2 : cip2.policy = some pnew)
    (hsid : pnew.sid = s.nextSid) (inv : SidInv s) :
    SidInv { policies := fun i => if i = k then some cip2 else s.policies i
             nextSid := s.nextSid + 1
             detachLog := s.detachLog ++ [some pold.sid]
             resolveCount := rc } := by
  have holdLt : pold.sid < s.nextSid := inv.sidLt k pold hold
  refine ⟨?_, ?_, ?_, ?_, ?_⟩
  · intro i p hsp
    rw [snapshotOf_write] at hsp
    show p.sid < s.nextSid + 1
    by_cases hik : i = k
    · rw [if_pos hik, hp2] at hsp
      injection hsp with hsp
      subst hsp
      omega
    · rw [if_neg hik] at hsp
      have := inv.sidLt i p hsp
      omega
  · intro i j pi pj hi hj hsid2
    rw [snapshotOf_write] at hi hj
    by_cases hik : i = k
    · by_cases hjk : j = k
      · exact hik.trans hjk.symm
      · exfalso
        rw [if_pos hik, hp2] at hi
        injection hi with hi
        subst hi
        rw [if_neg hjk] at hj
        have := inv.sidLt j pj hj
        omega
    · by_cases hjk : j = k
      · exfalso
        rw [if_pos hjk, hp2] at hj
        injection hj with hj
        subst hj
        rw [if_neg hik] at hi
        have := inv.sidLt i pi hi
        omega
      · rw [if_neg hik] at hi
        rw [if_neg hjk] at hj
        exact inv.sidUnique i j pi pj hi hj hsid2
  · intro n hl
    rw [liveSid_write_iff] at hl
    rw [detachCount_mk, List.count_append, count_some_singleton]
    rcases hl with ⟨p, hp, hpsid⟩ | ⟨i, hik, p, hsp, hpsid⟩
    · rw [hp2] at hp
      injection hp with hp
      subst hp
      have e1 : s.detachLog.count (some n) = 0 := inv.freshCount n (by omega)
      have e2 : pold.sid ≠ n := by omega
      simp [e1, e2]
    · have e1 : s.detachLog.count (some n) = 0 := inv.liveCount n ⟨i, p, hsp, hpsid⟩
      have e2 : pold.sid ≠ n := by
        intro he
        exact hik (inv.sidUnique i k p pold hsp hold (by omega))
      simp [e1, e2]
  · intro n hn hnl
    rw [detachCount_mk, List.count_append, count_some_singleton]
    by_cases hns : n = s.nextSid
    · exfalso
      exact hnl (by rw [liveSid_write_iff]; exact Or.inl ⟨pnew, hp2, by omega⟩)
    · have hn2 : n < s.nextSid := by
        have : n < s.nextSid + 1 := hn
        omega
      by_cases hpo : pold.sid = n
      · have e1 : s.detachLog.count (some n) = 0 :=
          inv.liveCount n ⟨k, pold, hold, hpo⟩
        simp [e1, hpo]
      · have hdead : ¬ liveSid s n := by
          rintro ⟨i, p, hsp, hpsid⟩
          by_cases hik : i = k
          · subst hik
            rw [hold] at hsp
            injection hsp with hsp
            subst hsp
            exact hpo hpsid
          · exact hnl (by rw [liveSid_write_iff]; exact Or.inr ⟨i, hik, p, hsp, hpsid⟩)
        have e1 : s.detachLog.count (some n) = 1 := inv.deadCount n hn2 hdead
        simp [e1, hpo]
  · intro n hn
    rw [detachCount_mk, List.count_append, count_some_singleton]
    have hle : s.nextSid + 1 ≤ n := hn
    have e1 : s.detachLog.count (some n) = 0 := inv.freshCount n (by omega)
    have e2 : pold.sid ≠ n := by omega
    simp [e1, e2]

theorem SidInv_delete_some (s : CacheState) (k : NumericIdentity)
    (pold : selectorPolicy) (hold : snapshotOf s k = some pold)
    (inv : SidInv s) :
    SidInv { policies := fun i => if i = k then none else s.policies i
             nextSid := s.nextSid
             detachLog := s.detachLog ++ [some pold.sid]
             resolveCount := s.resolveCount } := by
  have holdLt : pold.sid < s.nextSid := inv.sidLt k pold hold
  refine ⟨?_, ?_, ?_, ?_, ?_⟩
  · intro i p hsp
    rw [snapshotOf_erase] at hsp
    show p.sid < s.nextSid
    by_cases hik : i = k
    · rw [if_pos hik] at hsp
      exact Option.noConfusion hsp
    · rw [if_neg hik] at hsp
      exact inv.sidLt i p hsp
  · intro i j pi pj hi hj hsid2
    rw [snapshotOf_erase] at hi hj
    by_cases hik : i = k
    · rw [if_pos hik] at hi
      exact Option.noConfusion hi
    · by_cases hjk : j = k
      · rw [if_pos hjk] at hj
        exact Option.noConfusion hj
      · rw [if_neg hik] at hi
        rw [if_neg hjk] at hj
        exact inv.sidUnique i j pi pj hi hj hsid2
  · intro n hl
    rw [liveSid_erase_iff] at hl
    rw [detachCount_mk, List.count_append, count_some_singleton]
    obtain ⟨i, hik, p, hsp, hpsid⟩ := hl
    have e1 : s.detachLog.count (some n) = 0 := inv.liveCount n ⟨i, p, hsp, hpsid⟩
    have e2 : pold.sid ≠ n := by
      intro he
      exact hik (inv.sidUnique i k p pold hsp hold (by omega))
    simp [e1, e2]
  · intro n hn hnl
    rw [detachCount_mk, List.count_append, count_some_singleton]
    have hn2 : n < s.nextSid := hn
    by_cases hpo : pold.sid = n
    · have e1 : s.detachLog.count (some n) = 0 :=
        inv.liveCount n ⟨k, pold, hold, hpo⟩
      simp [e1, hpo]
    · have hdead : ¬ liveSid s n := by
        rintro ⟨i, p, hsp, hpsid⟩
        by_cases hik : i = k
        · subst hik
          rw [hold] at hsp
          injection hsp with hsp
          subst hsp
          exact hpo hpsid
        · exact hnl (by rw [liveSid_erase_iff]; exact ⟨i, hik, p, hsp, hpsid⟩)
      have e1 : s.detachLog.count (some n) = 1 := inv.deadCount n hn2 hdead
      simp [e1, hpo]
  · intro n hn
    rw [detachCount_mk, List.count_append, count_some_singleton]
    have hle : s.nextSid ≤ n := hn
    have e1 : s.detachLog.count (some n) = 0 := inv.freshCount n hle
    have e2 : pold.sid ≠ n := by omega
    simp [e1, e2]

theorem SidInv_delete_none (s : CacheState) (k : NumericIdentity)
    (hold : snapshotOf s k = none) (inv : SidInv s) :
    SidInv { policies := fun i => if i = k then none else s.policies i
             nextSid := s.nextSid
             detachLog := s.detachLog ++ [Option.none]
             resolveCount := s.resolveCount } := by
  refine ⟨?_, ?_, ?_, ?_, ?_⟩
  · intro i p hsp
    rw [snapshotOf_erase] at hsp
    show p.sid < s.nextSid
    by_cases hik : i = k
    · rw [if_pos hik] at hsp
      exact Option.noConfusion hsp
    · rw [if_neg hik] at hsp
      exact inv.sidLt i p hsp
  · intro i j pi pj hi hj hsid2
    rw [snapshotOf_erase] at hi hj
    by_cases hik : i = k
    · rw [if_pos hik] at hi
      exact Option.noConfusion hi
    · by_cases hjk : j = k
      · rw [if_pos hjk] at hj
        exact Option.noConfusion hj
      · rw [if_neg hik] at hi
        rw [if_neg hjk] at hj
        exact inv.sidUnique i j pi pj hi hj hsid2
  · intro n hl
    rw [liveSid_erase_iff] at hl
    rw [detachCount_mk, List.count_append, count_none_singleton]
    obtain ⟨i, hik, p, hsp, hpsid⟩ := hl
    have e1 : s.detachLog.count (some n) = 0 := inv.liveCount n ⟨i, p, hsp, hpsid⟩
    simp [e1]
  · intro n hn hnl
    rw [detachCount_mk, List.count_append, count_none_singleton]
    have hn2 : n < s.nextSid := hn
    have hdead : ¬ liveSid s n := by
      rintro ⟨i, p, hsp, hpsid⟩
      by_cases hik : i = k
      · subst hik
        rw [hold] at hsp
        exact Option.noConfusion hsp
      · exact hnl (by rw [liveSid_erase_iff]; exact ⟨i, hik, p, hsp, hpsid⟩)
    have e1 : s.detachLog.count (some n) = 1 := inv.deadCount n hn2 hdead
    simp [e1]
  · intro n hn
    rw [detachCount_mk, List.count_append, count_none_singleton]
    have e1 : s.detachLog.count (some n) = 0 := inv.freshCount n hn
    simp [e1]


theorem SidInv_step (s : CacheState) (op : CacheOp) (inv : SidInv s) :
    SidInv (step s op) := by
  cases op with
  | update identity repoRev res =>
      show SidInv (updateSelectorPolicy s identity repoRev res).2
      rcases h : s.policies identity.ID with _ | cip
      · -- entry missing: lookupOrCreate inserts an empty entry first
        rw [upd_eq_missing s identity repoRev res h]
        have inv2 := SidInv_insert_empty s identity h inv
        rcases res with e | ⟨rev, l4⟩
        · rw [resolveAndPublish_error_state]
          exact SidInv_rc _ _ inv2
        · rw [resolveAndPublish_ok_none_state _ _ _ rev l4 rfl]
          refine SidInv_publish_none _ identity.ID _ _ _ ?_ rfl rfl inv2
          rw [snapshotOf_write, if_pos rfl]
          rfl
      · rcases hp : cip.policy with _ | p
        · -- entry present, slot empty
          rw [upd_eq_found_empty s identity repoRev res cip h hp]
          rcases res with e | ⟨rev, l4⟩
          · rw [resolveAndPublish_error_state]
            exact SidInv_rc _ _ inv
          · rw [resolveAndPublish_ok_none_state _ _ _ rev l4 hp]
            refine SidInv_publish_none _ identity.ID _ _ _ ?_ rfl rfl inv
            simp [snapshotOf, h, hp]
        · by_cases hge : p.Revision ≥ repoRev
          · -- gate: no-op
            rw [updateSelectorPolicy_noop s identity repoRev res cip p h hp hge]
            exact inv
          · have hlt : p.Revision < repoRev := Nat.not_le.mp hge
            rw [upd_eq_found_stale s identity repoRev res cip p h hp hlt]
            rcases res with e | ⟨rev, l4⟩
            · rw [resolveAndPublish_error_state]
              exact SidInv_rc _ _ inv
            · rw [resolveAndPublish_ok_some_state _ _ _ rev l4 p hp]
              refine SidInv_publish_some _ identity.ID _ _ p _ ?_ rfl rfl inv
              simp [snapshotOf, h, hp]
  | del identity =>
      show SidInv (deleteEntry s identity).2
      rcases h : s.policies identity.ID with _ | cip
      · rw [deleteEntry_missing_state s identity h]
        exact inv
      · rw [deleteEntry_found_state s identity cip h]
        rcases hp : cip.policy with _ | pold
        · simp only [Option.map_none']
          exact SidInv_delete_none s identity.ID (by simp [snapshotOf, h, hp]) inv
        · simp only [Option.map_some']
          exact SidInv_delete_some s identity.ID pold (by simp [snapshotOf, h, hp]) inv

theorem SidInv_initial : SidInv initialCache := by
  refine ⟨?_, ?_, ?_, ?_, ?_⟩
  · intro i p hsp
    simp [snapshotOf, initialCache] at hsp
  · intro i j pi pj hi hj _
    simp [snapshotOf, initialCache] at hi
  · intro n _
    rfl
  · intro n hn _
    exact absurd hn (by simp [initialCache])
  · intro n _
    rfl

theorem SidInv_run (ops : List CacheOp) : SidInv (run ops) := by
  suffices h : ∀ s, SidInv s → SidInv (ops.foldl step s) from h initialCache SidInv_initial
  induction ops with
  | nil => intro s hs; exact hs
  | cons op tl ih =>
      intro s hs
      exact ih (step s op) (SidInv_step s op hs)

/-- C4: over any operation trace from the fresh cache, every snapshot ever
published into an entry (every allocated snapshot id) is detached at most
once, and is detached (exactly once) precisely when it is no longer held by
any entry — i.e. when it was superseded by setPolicy or its owning entry
was deleted; a snapshot still held by its entry has never been detached. -/
theorem detach_exactly_once (ops : List CacheOp) (n : Nat)
    (hpub : n < (run ops).nextSid) :
    detachCount (run ops) n ≤ 1 ∧
    (liveSid (run ops) n ↔ detachCount (run ops) n = 0) := by
  have inv := SidInv_run ops
  refine ⟨?_, ?_, ?_⟩
  · by_cases hl : liveSid (run ops) n
    · rw [inv.liveCount n hl]
      omega
    · rw [inv.deadCount n hpub hl]
  · exact inv.liveCount n
  · intro h0
    by_contra hl
    rw [inv.deadCount n hpub hl] at h0
    omega

/-- Witness for detach_exactly_once: snapshot 0 of trace `opsW` was
superseded by snapshot 1, hence is no longer live and was detached once. -/
theorem detach_exactly_once_witness :
    0 < (run opsW).nextSid ∧
    (detachCount (run opsW) 0 ≤ 1 ∧
      (liveSid (run opsW) 0 ↔ detachCount (run opsW) 0 = 0)) :=
  ⟨by decide, detach_exactly_once opsW 0 (by decide)⟩

end Policy
